import Mathlib

/-!
# Cyanite GraphQL client (`app.go`)

A shallow embedding of the request/response mapping layer of `app.go`:
`Trim`, `Query`, `FindByHash256` and `FindSimilar`.

Go strings are modelled by `String`; every character the code inspects is ASCII,
so working on characters instead of bytes changes nothing. The standard library
is outside the program: `regexp` and `fmt.Sprintf` are modelled for the pattern and the
verbs the source uses, while `net/http` and `json.Unmarshal` stay parameters of the
operations.
-/

namespace App

/-! ## Whitespace normalisation -/

/-- The class `\s` of Go's `regexp` syntax: `[\t\n\f\r ]`. -/
def isSpace (c : Char) : Bool :=
  c == '\t' || c == '\n' || c == Char.ofNat 12 || c == '\r' || c == ' '

/-- The part of Go's `regexp` syntax that the pattern of `app.go` is written in. -/
inductive Regexp where
  /-- A literal character, such as `\n`. -/
  | literal (c : Char)
  /-- The Perl class `\s`. -/
  | perlSpace
  /-- The greedy repetition `r+`. -/
  | plus (r : Regexp)
  /-- The alternation `r₁|r₂`. -/
  | alternate (r₁ r₂ : Regexp)
  deriving DecidableEq, Repr

/-- The lengths of the matches of a pattern anchored at the head of the input, in the
order in which a backtracking matcher finds them: for `r₁|r₂` those of `r₁` come before
those of `r₂`, and `r+` prefers one more round to stopping. The first argument bounds
the depth of the search. -/
def Regexp.matchLens : Nat → Regexp → List Char → List Nat
  | 0, _, _ => []
  | _ + 1, .literal _, [] => []
  | _ + 1, .literal c, x :: _ => if x = c then [1] else []
  | _ + 1, .perlSpace, [] => []
  | _ + 1, .perlSpace, x :: _ => if isSpace x then [1] else []
  | fuel + 1, .alternate r₁ r₂, cs => matchLens fuel r₁ cs ++ matchLens fuel r₂ cs
  | fuel + 1, .plus r, cs =>
    (matchLens fuel r cs).flatMap fun n =>
      (if n = 0 then [] else (matchLens fuel (.plus r) (cs.drop n)).map fun m => n + m) ++ [n]

/-- The nesting depth of a pattern. -/
def Regexp.depth : Regexp → Nat
  | .literal _ => 1
  | .perlSpace => 1
  | .plus r => r.depth + 1
  | .alternate r₁ r₂ => max r₁.depth r₂.depth + 1

/-- The match that Go's `regexp` reports at a position, anchored there: the package is
leftmost-first, it takes the match a backtracking matcher finds first. `none`: the
pattern does not match at the head of the input. -/
def Regexp.leftmostFirst (r : Regexp) (cs : List Char) : Option Nat :=
  (r.matchLens (r.depth + cs.length) cs).head?

/-- The scan of `Regexp.ReplaceAllString`: from the left, where the pattern matches,
emit `repl` and step over the match, elsewhere copy one character. The first argument
counts the characters of the current match that are still to be stepped over. The
pattern of `app.go` matches no empty string; an empty match is passed over. -/
def Regexp.replaceAll (r : Regexp) (repl : List Char) : Nat → List Char → List Char
  | _, [] => []
  | skip + 1, _ :: cs => replaceAll r repl skip cs
  | 0, c :: cs =>
    match r.leftmostFirst (c :: cs) with
    | some (n + 1) => repl ++ replaceAll r repl n cs
    | _ => c :: replaceAll r repl 0 cs

/-- The method `func (re *Regexp) ReplaceAllString(src, repl string) string`, for a
replacement text without `$`. -/
def Regexp.ReplaceAllString (r : Regexp) (src repl : String) : String :=
  ⟨r.replaceAll repl.data 0 src.data⟩

/-- The pattern `\n|\s+` of `var re = regexp.MustCompile(...)`. -/
def re : Regexp := .alternate (.literal '\n') (.plus .perlSpace)

/-- The method `func (c *Cyanite) Trim(query string) string`. The receiver is not
used. -/
def Trim (query : String) : String :=
  re.ReplaceAllString query " "

/-- The scan of `Trim` on the characters of its argument. -/
def trimChars (cs : List Char) : List Char := re.replaceAll [' '] 0 cs

/-! ## Errors and `fmt.Sprintf` -/

/-- Go `error` values, by dynamic type: `errorString` is what `errors.New` makes,
`transport` stands for the errors of `net/http`, `net/url` and `io`, and `json` for the
errors of `encoding/json` (`*json.SyntaxError`, `*json.UnmarshalTypeError`, ...). -/
inductive GoError where
  | errorString (s : String)
  | transport (s : String)
  | json (s : String)
  deriving DecidableEq, Repr

/-- The call `errors.New(text)`. -/
def errorsNew (text : String) : GoError := GoError.errorString text

/-- The tail `%!(EXTRA string=a, string=b)` that `fmt.Sprintf` appends for operands
that no verb has consumed. -/
def sprintfExtra : List String → List Char
  | [] => []
  | a :: as =>
    "%!(EXTRA string=".data ++ a.data ++
      (as.map fun b => ", string=".data ++ b.data).flatten ++ [')']

/-- The formatting loop of `fmt.Sprintf` on string operands. The verbs of the source,
`%s`, and `%%` are interpreted (`%s` writes the operand as it is); a `%s` that finds no
operand writes `%!s(MISSING)`, a `%` that ends the format writes `%!(NOVERB)`. Other
verbs, flags and widths do not occur in `app.go` and are copied as written. -/
def sprintfChars : List Char → List String → List Char
  | [], args => sprintfExtra args
  | [c], args =>
    if c = '%' then "%!(NOVERB)".data ++ sprintfExtra args else c :: sprintfExtra args
  | c :: v :: rest, args =>
    if c = '%' then
      if v = 's' then
        match args with
        | a :: as => a.data ++ sprintfChars rest as
        | [] => "%!s(MISSING)".data ++ sprintfChars rest []
      else if v = '%' then '%' :: sprintfChars rest args
      else c :: sprintfChars (v :: rest) args
    else c :: sprintfChars (v :: rest) args

/-- The call `fmt.Sprintf(format, args...)` with string operands. -/
def Sprintf (format : String) (args : List String) : String :=
  ⟨sprintfChars format.data args⟩

/-! ## Transport -/

/-- The struct `Cyanite`: the endpoint and the bearer token. -/
structure Cyanite where
  URL : String
  Token : String
  deriving DecidableEq, Repr

/-- The fields of `*http.Request` that `Query` sets. -/
structure Request where
  Method : String
  URL : String
  Header : List (String × String) := []
  Body : String
  deriving DecidableEq, Repr

/-- The call `req.Header.Add(key, value)`; both keys of the source are already in
canonical form. -/
def Request.HeaderAdd (req : Request) (key value : String) : Request :=
  { req with Header := req.Header ++ [(key, value)] }

/-- What `client.Do` hands back, as far as `Query` looks at it: the bytes of the body
and the error, if any, that `ioutil.ReadAll(resp.Body)` ends with. The status code is
carried along and never inspected. -/
structure Response where
  StatusCode : Nat := 200
  Body : String
  ReadErr : Option GoError := none
  deriving DecidableEq, Repr

/-- The world outside the program: the library calls `http.NewRequest` (its error, for a
method and a URL) and `client.Do`, and the log of the requests handed to `client.Do`. -/
structure Net where
  NewRequestErr : String → String → Option GoError
  Do : Request → Except GoError Response
  Sent : List Request := []

/-- The method `func (c *Cyanite) Query(query string, variables string) (string, error)`,
its parameter `variables` written `vars`. The result is the Go pair, together with the
world after the call. -/
def Query (c : Cyanite) (net : Net) (query vars : String) :
    (String × Option GoError) × Net :=
  let query := Trim query
  let vars := Trim vars
  let req_body := Sprintf "\x7b \"query\": \"%s\", \"variables\": %s \x7d" [query, vars]
  match net.NewRequestErr "POST" c.URL with
  | some err => (("", some err), net)
  | none =>
    let req : Request := { Method := "POST", URL := c.URL, Body := req_body }
    let req := req.HeaderAdd "Content-Type" "application/json"
    let req := req.HeaderAdd "Authorization" (Sprintf "Bearer %s" [c.Token])
    let net := { net with Sent := net.Sent ++ [req] }
    match net.Do req with
    | .error err => (("", some err), net)
    | .ok resp =>
      match resp.ReadErr with
      | some err => (("", some err), net)
      | none => ((resp.Body, none), net)

/-! ## Response shapes -/

/-- The struct `CyaniteError`. -/
structure CyaniteError where
  Message : String := ""
  deriving DecidableEq, Repr

/-- The struct `EdgeNode`. -/
structure EdgeNode where
  ID : String := ""
  Title : String := ""
  deriving DecidableEq, Repr

/-- The element type `struct { Node EdgeNode }` of the `Edges` slices. -/
structure Edge where
  Node : EdgeNode := {}
  deriving DecidableEq, Repr

/-- The struct `LibraryTracksResponse`. -/
structure LibraryTracksResponse where
  Edges : List Edge := []
  deriving DecidableEq, Repr

/-- The `Data` field of `FindByHash256Response`, with its embedded struct. -/
structure FindByHash256Data where
  LibraryTracksResponse : LibraryTracksResponse := {}
  deriving DecidableEq, Repr

/-- The struct `FindByHash256Response`. -/
structure FindByHash256Response where
  Data : FindByHash256Data := {}
  Errors : List CyaniteError := []
  deriving DecidableEq, Repr

/-- The struct `SimilarTracks`. -/
structure SimilarTracks where
  Edges : List Edge := []
  deriving DecidableEq, Repr

/-- The struct `LibraryTrack`. -/
structure LibraryTrack where
  ID : String := ""
  SimilarTracks : SimilarTracks := {}
  deriving DecidableEq, Repr

/-- The `Data` field of `FindSimilarResponse`, with its embedded struct. -/
structure FindSimilarData where
  LibraryTrack : LibraryTrack := {}
  deriving DecidableEq, Repr

/-- The struct `FindSimilarResponse`. -/
structure FindSimilarResponse where
  Data : FindSimilarData := {}
  Errors : List CyaniteError := []
  deriving DecidableEq, Repr

/-- The call `json.Unmarshal(data, v)` for a target of type `α`: the value left in the target and
the error returned. It is library code and stays a parameter of the operations. -/
abbrev Unmarshal (α : Type) := String → α → α × Option GoError

/-! ## The two operations -/

/-- The query literal of `FindByHash256`. -/
def hashQuery : String :=
  "query LibraryTracksFilteredBySHA256Query($sha256: String!) \x7b\n" ++
  "\t\t\t\tlibraryTracks(filter: \x7b sha256: $sha256 \x7d) \x7b\n" ++
  "\t\t\t\t\tedges \x7b\n" ++
  "\t\t\t\t\t\tnode \x7b\n" ++
  "\t\t\t\t\t\t\tid\n" ++
  "\t\t\t\t\t\t\ttitle\n" ++
  "\t\t\t\t\t\t\x7d\n" ++
  "\t\t\t\t\t\x7d\n" ++
  "\t\t\t\t\x7d\n" ++
  "\t\t\t\x7d"

/-- The method `func (c *Cyanite) FindByHash256(hash256 string) (string, error)`. -/
def FindByHash256 (c : Cyanite) (net : Net) (unmarshal : Unmarshal FindByHash256Response)
    (hash256 : String) : (String × Option GoError) × Net :=
  let query := hashQuery
  let vars := Sprintf "\x7b \"sha256\": \"%s\" \x7d" [hash256]
  match Query c net query vars with
  | ((_, some err), net) => (("", some err), net)
  | ((resp, none), net) =>
    let (response, _err) := unmarshal resp {}
    if h : response.Errors.length > 0 then
      (("", some (errorsNew (Sprintf "GraphQL error: %s" [response.Errors[0].Message]))), net)
    else if h0 : response.Data.LibraryTracksResponse.Edges.length = 0 then
      (("", some (errorsNew "No track found by hash")), net)
    else
      (((response.Data.LibraryTracksResponse.Edges.get ⟨0, Nat.pos_of_ne_zero h0⟩).Node.ID,
        none), net)

/-- The query literal of `FindSimilar`. -/
def similarQuery : String :=
  "query SimilarTracksQuery($trackId: ID!) \x7b\n" ++
  "\t\tlibraryTrack(id: $trackId) \x7b\n" ++
  "\t\t  ... on LibraryTrack \x7b\n" ++
  "\t\t\tid\n" ++
  "\t\t\tsimilarTracks(target: \x7bspotify: \x7b\x7d\x7d) \x7b\n" ++
  "\t\t\t  ... on SimilarTracksConnection \x7b\n" ++
  "\t\t\t\tedges \x7b\n" ++
  "\t\t\t\t  node \x7b\n" ++
  "\t\t\t\t\t... on SpotifyTrack \x7b\n" ++
  "\t\t\t\t\t  id\n" ++
  "\t\t\t\t\t\x7d\n" ++
  "\t\t\t\t  \x7d\n" ++
  "\t\t\t\t\x7d\n" ++
  "\t\t\t  \x7d\n" ++
  "\t\t\t\x7d\n" ++
  "\t\t  \x7d\n" ++
  "\t\t\x7d\n" ++
  "\t  \x7d\n" ++
  "\t  "

/-- The method `func (c *Cyanite) FindSimilar(trackID string) ([]string, error)`. The
slice result is an `Option`: `none` is the nil slice, `some []` the empty slice
`[]string{}`. -/
def FindSimilar (c : Cyanite) (net : Net) (unmarshal : Unmarshal FindSimilarResponse)
    (trackID : String) : (Option (List String) × Option GoError) × Net :=
  let query := similarQuery
  let vars := Sprintf "\x7b \"trackId\": \"%s\" \x7d" [trackID]
  match Query c net query vars with
  | ((_, some err), net) => ((none, some err), net)
  | ((resp, none), net) =>
    let (response, _err) := unmarshal resp {}
    if h : response.Errors.length > 0 then
      ((none, some (errorsNew (Sprintf "GraphQL error: %s" [response.Errors[0].Message]))), net)
    else
      let result : List String := []
      let result := response.Data.LibraryTrack.SimilarTracks.Edges.foldl
        (fun result node => result ++ [node.Node.ID]) result
      ((some result, none), net)

/-! ## Maximal runs, for stating what `Trim` does -/

/-- The maximal runs of a text for a character class `p`: the text cut into consecutive
blocks, each as long as possible, of characters that are all in `p` or all outside. -/
def runs (p : Char → Bool) : List Char → List (List Char)
  | [] => []
  | c :: cs =>
    match runs p cs with
    | (d :: r) :: rs => if p c = p d then (c :: d :: r) :: rs else [c] :: (d :: r) :: rs
    | [] :: rs => [c] :: rs
    | [] => [[c]]

/-- What `Trim` writes for one maximal run: a run outside `\s` stays; a run of `\s`
characters gives one space for each newline it begins with, and one more space when
characters of the run are left after those newlines. -/
def trimRun (w : List Char) : List Char :=
  match w with
  | [] => []
  | c :: _ =>
    if isSpace c then
      List.replicate (w.takeWhile (fun x => x == '\n')).length ' ' ++
        (if w.dropWhile (fun x => x == '\n') = [] then [] else [' '])
    else w

/-- Whitespace in the words of the specification: space, tab, newline. -/
def isSpecSpace (c : Char) : Bool :=
  c == ' ' || c == '\t' || c == '\n'

/-- Whitespace normalisation in the words of the specification: every maximal run of
whitespace becomes exactly one space, everything else stays. -/
def collapseSpec (s : String) : String :=
  ⟨((runs isSpecSpace s.data).map fun w =>
      match w with
      | [] => []
      | c :: _ => if isSpecSpace c then [' '] else w).flatten⟩

/-! ## Sample worlds and decoder results -/

/-- A client for the examples. -/
def sampleClient : Cyanite :=
  { URL := "https://api.cyanite.ai/graphql", Token := "secret" }

/-- The hash that `main` looks up. -/
def sampleHash : String :=
  "c5307921c306a78aa70edeb2d1976af0b1ea1e40c616abfa68b6cdc39484964e"

/-- A world in which `http.NewRequest` succeeds and every request is answered, without
a read error, by `body`. -/
def netAnswering (body : String) : Net :=
  { NewRequestErr := fun _ _ => none, Do := fun _ => .ok { Body := body } }

/-- A world in which `client.Do` fails with `err` (connection refused, for one). -/
def netRefusing (err : GoError) : Net :=
  { NewRequestErr := fun _ _ => none, Do := fun _ => .error err }

/-- The body of the round-trip example of the specification:
`{"data":{"libraryTracks":{"edges":[{"node":{"id":"T1","title":"Song"}}]}},"errors":[]}`. -/
def bodyT1 : String :=
  "\x7b\"data\":\x7b\"libraryTracks\":\x7b\"edges\":[" ++
  "\x7b\"node\":\x7b\"id\":\"T1\",\"title\":\"Song\"\x7d\x7d" ++
  "]\x7d\x7d,\"errors\":[]\x7d"

/-- A body without tracks and without errors:
`{"data":{"libraryTracks":{"edges":[]}},"errors":[]}`. -/
def bodyNoTracks : String :=
  "\x7b\"data\":\x7b\"libraryTracks\":\x7b\"edges\":[]\x7d\x7d,\"errors\":[]\x7d"

/-- A body with a track and two errors:
`{"data":{"libraryTracks":{"edges":[{"node":{"id":"T1","title":"Song"}}]}},"errors":[{"message":"bad token"},{"message":"second"}]}`. -/
def bodyBadToken : String :=
  "\x7b\"data\":\x7b\"libraryTracks\":\x7b\"edges\":[" ++
  "\x7b\"node\":\x7b\"id\":\"T1\",\"title\":\"Song\"\x7d\x7d" ++
  "]\x7d\x7d," ++
  "\"errors\":[\x7b\"message\":\"bad token\"\x7d,\x7b\"message\":\"second\"\x7d]\x7d"

/-- A body with the similar tracks `A` and `B`, in that order:
`{"data":{"libraryTrack":{"id":"T1","similarTracks":{"edges":[{"node":{"id":"A"}},{"node":{"id":"B"}}]}}},"errors":[]}`. -/
def bodySimilarAB : String :=
  "\x7b\"data\":\x7b\"libraryTrack\":\x7b\"id\":\"T1\",\"similarTracks\":\x7b\"edges\":[" ++
  "\x7b\"node\":\x7b\"id\":\"A\"\x7d\x7d,\x7b\"node\":\x7b\"id\":\"B\"\x7d\x7d" ++
  "]\x7d\x7d\x7d,\"errors\":[]\x7d"

/-- A body with a similar track and two errors:
`{"data":{"libraryTrack":{"id":"T1","similarTracks":{"edges":[{"node":{"id":"A"}}]}}},"errors":[{"message":"bad token"},{"message":"second"}]}`. -/
def bodySimilarBadToken : String :=
  "\x7b\"data\":\x7b\"libraryTrack\":\x7b\"id\":\"T1\",\"similarTracks\":\x7b\"edges\":[" ++
  "\x7b\"node\":\x7b\"id\":\"A\"\x7d\x7d" ++
  "]\x7d\x7d\x7d," ++
  "\"errors\":[\x7b\"message\":\"bad token\"\x7d,\x7b\"message\":\"second\"\x7d]\x7d"

/-- The error of `json.Unmarshal` on an empty input. -/
def jsonEndOfInput : GoError := GoError.json "unexpected end of JSON input"

/-- What `json.Unmarshal` does with the sample bodies for a `*FindByHash256Response`
target, as a table. The empty body is no JSON text: the target stays as it was and a
`*json.SyntaxError` comes back. Bodies outside the table are not used anywhere. -/
def jsonHashSamples : Unmarshal FindByHash256Response := fun data v =>
  if data = bodyT1 then
    ({ Data := { LibraryTracksResponse :=
        { Edges := [{ Node := { ID := "T1", Title := "Song" } }] } },
       Errors := [] }, none)
  else if data = bodyNoTracks then
    ({ Data := { LibraryTracksResponse := { Edges := [] } }, Errors := [] }, none)
  else if data = bodyBadToken then
    ({ Data := { LibraryTracksResponse :=
        { Edges := [{ Node := { ID := "T1", Title := "Song" } }] } },
       Errors := [{ Message := "bad token" }, { Message := "second" }] }, none)
  else if data = "" then (v, some jsonEndOfInput)
  else (v, some (GoError.json "body outside the table"))

/-- What `json.Unmarshal` does with the sample bodies for a `*FindSimilarResponse`
target, as a table; see `jsonHashSamples`. -/
def jsonSimilarSamples : Unmarshal FindSimilarResponse := fun data v =>
  if data = bodySimilarAB then
    ({ Data := { LibraryTrack := { ID := "T1", SimilarTracks :=
        { Edges := [{ Node := { ID := "A" } }, { Node := { ID := "B" } }] } } },
       Errors := [] }, none)
  else if data = bodySimilarBadToken then
    ({ Data := { LibraryTrack := { ID := "T1", SimilarTracks :=
        { Edges := [{ Node := { ID := "A" } }] } } },
       Errors := [{ Message := "bad token" }, { Message := "second" }] }, none)
  else if data = "" then (v, some jsonEndOfInput)
  else (v, some (GoError.json "body outside the table"))

/-- The request body in the words of the specification: the template
`{"query": "<query>", "variables": <variables>}` filled with the normalised inputs. -/
def specRequestBody (q v : String) : String :=
  "\x7b\"query\": \"" ++ Trim q ++ "\", \"variables\": " ++ Trim v ++ "\x7d"

/-! ## Lemmas on the pattern, `ReplaceAllString` and `Trim` -/

theorem matchLens_alternate (fuel : Nat) (r₁ r₂ : Regexp) (cs : List Char) :
    Regexp.matchLens (fuel + 1) (.alternate r₁ r₂) cs =
      Regexp.matchLens fuel r₁ cs ++ Regexp.matchLens fuel r₂ cs := rfl

theorem matchLens_plus (fuel : Nat) (r : Regexp) (cs : List Char) :
    Regexp.matchLens (fuel + 1) (.plus r) cs =
      (Regexp.matchLens fuel r cs).flatMap fun n =>
        (if n = 0 then []
          else (Regexp.matchLens fuel (.plus r) (cs.drop n)).map fun m => n + m) ++ [n] := rfl

theorem matchLens_perlSpace (fuel : Nat) (x : Char) (xs : List Char) :
    Regexp.matchLens (fuel + 1) .perlSpace (x :: xs) = if isSpace x then [1] else [] := rfl

theorem matchLens_literal (fuel : Nat) (c x : Char) (xs : List Char) :
    Regexp.matchLens (fuel + 1) (.literal c) (x :: xs) = if x = c then [1] else [] := rfl

theorem matchLens_plus_space_head :
    ∀ (cs : List Char) (fuel : Nat), (cs.takeWhile isSpace).length + 2 ≤ fuel →
      (Regexp.matchLens fuel (.plus .perlSpace) cs).head? =
        if (cs.takeWhile isSpace).length = 0 then none
        else some (cs.takeWhile isSpace).length
  | [], fuel, h => by
    obtain ⟨f, rfl⟩ : ∃ f, fuel = f + 2 := ⟨fuel - 2, by omega⟩
    rfl
  | c :: cs, fuel, h => by
    obtain ⟨f, rfl⟩ : ∃ f, fuel = f + 2 := ⟨fuel - 2, by omega⟩
    rw [show f + 2 = (f + 1) + 1 from rfl, matchLens_plus, matchLens_perlSpace]
    cases hc : isSpace c with
    | false => simp [List.takeWhile_cons, hc]
    | true =>
      have hlen : (cs.takeWhile isSpace).length + 2 ≤ f + 1 := by
        simp only [List.takeWhile_cons, hc, if_true, List.length_cons] at h
        omega
      have ih := matchLens_plus_space_head cs (f + 1) hlen
      simp only [if_true, List.flatMap_cons, List.flatMap_nil, List.append_nil,
        List.drop_succ_cons, List.drop_zero, List.head?_append, List.head?_map, ih,
        List.takeWhile_cons, hc, List.length_cons, one_ne_zero, if_false]
      by_cases hk : (cs.takeWhile isSpace).length = 0
      · simp [hk]
      · simp [hk, Nat.add_comm]

theorem takeWhile_length_bound (c : Char) (cs : List Char) :
    ((c :: cs).takeWhile isSpace).length ≤ cs.length + 1 :=
  (List.takeWhile_sublist isSpace (l := c :: cs)).length_le

/-- With fuel for the depth of the pattern and the length of the input, and with any
more, the first match of `re` at the head of the input is: a newline alone; else the
whole stretch of `\s` characters; else none. -/
theorem matchLens_re_head (fuel : Nat) :
    ∀ cs : List Char, re.depth + cs.length ≤ fuel →
      (re.matchLens fuel cs).head? =
        match cs with
        | [] => none
        | c :: cs =>
          if c = '\n' then some 1
          else if isSpace c then some ((cs.takeWhile isSpace).length + 1)
          else none
  | [], h => by
    have hd : re.depth = 3 := by decide
    obtain ⟨f, rfl⟩ : ∃ f, fuel = f + 3 := ⟨fuel - 3, by rw [hd] at h; omega⟩
    rfl
  | c :: cs, h => by
    have hd : re.depth = 3 := by decide
    rw [hd, List.length_cons] at h
    obtain ⟨f, rfl⟩ : ∃ f, fuel = f + 1 := ⟨fuel - 1, by omega⟩
    have hb := takeWhile_length_bound c cs
    have hp := matchLens_plus_space_head (c :: cs) f (by omega)
    obtain ⟨g, rfl⟩ : ∃ g, f = g + 1 := ⟨f - 1, by omega⟩
    rw [re, matchLens_alternate, matchLens_literal, List.head?_append, hp]
    by_cases hn : c = '\n'
    · simp [hn]
    · cases hc : isSpace c with
      | true => simp [hn, hc, List.takeWhile_cons]
      | false => simp [hn, hc, List.takeWhile_cons]

theorem leftmostFirst_re_nil : re.leftmostFirst [] = none := by decide

theorem leftmostFirst_re_newline (cs : List Char) :
    re.leftmostFirst ('\n' :: cs) = some 1 := by
  unfold Regexp.leftmostFirst
  rw [matchLens_re_head _ _ (Nat.le_refl _)]
  rfl

theorem leftmostFirst_re_space (c : Char) (cs : List Char) (hc : isSpace c = true)
    (hn : c ≠ '\n') :
    re.leftmostFirst (c :: cs) = some ((cs.takeWhile isSpace).length + 1) := by
  unfold Regexp.leftmostFirst
  rw [matchLens_re_head _ _ (Nat.le_refl _)]
  simp [hn, hc]

theorem leftmostFirst_re_other (c : Char) (cs : List Char) (hc : isSpace c = false) :
    re.leftmostFirst (c :: cs) = none := by
  have hn : c ≠ '\n' := by
    rintro rfl
    simp [isSpace] at hc
  unfold Regexp.leftmostFirst
  rw [matchLens_re_head _ _ (Nat.le_refl _)]
  simp [hn, hc]

/-- The pattern `re` has no empty match, so that `Regexp.replaceAll` passes over
nothing that Go would replace. -/
theorem leftmostFirst_re_ne_zero (cs : List Char) : re.leftmostFirst cs ≠ some 0 := by
  unfold Regexp.leftmostFirst
  rw [matchLens_re_head _ _ (Nat.le_refl _)]
  cases cs with
  | nil => simp
  | cons c cs =>
    by_cases hn : c = '\n'
    · simp [hn]
    · cases hc : isSpace c <;> simp [hn, hc]

theorem replaceAll_skip (r : Regexp) (repl : List Char) :
    ∀ (n : Nat) (cs : List Char), r.replaceAll repl n cs = r.replaceAll repl 0 (cs.drop n)
  | 0, cs => by simp
  | n + 1, [] => by simp [Regexp.replaceAll]
  | n + 1, _ :: cs => by
    simp only [Regexp.replaceAll, List.drop_succ_cons]
    exact replaceAll_skip r repl n cs

theorem drop_length_takeWhile (p : Char → Bool) :
    ∀ cs : List Char, cs.drop (cs.takeWhile p).length = cs.dropWhile p
  | [] => rfl
  | c :: cs => by
    by_cases h : p c = true
    · simp [List.takeWhile_cons, List.dropWhile_cons, h, drop_length_takeWhile p cs]
    · simp [List.takeWhile_cons, List.dropWhile_cons, h]

theorem Trim_data (s : String) : (Trim s).data = trimChars s.data := rfl

theorem trimChars_nil : trimChars [] = [] := rfl

theorem trimChars_newline (cs : List Char) :
    trimChars ('\n' :: cs) = ' ' :: trimChars cs := by
  simp only [trimChars, Regexp.replaceAll, leftmostFirst_re_newline]
  rfl

theorem trimChars_other (c : Char) (cs : List Char) (hc : isSpace c = false) :
    trimChars (c :: cs) = c :: trimChars cs := by
  simp only [trimChars, Regexp.replaceAll, leftmostFirst_re_other c cs hc]

theorem trimChars_space (c : Char) (cs : List Char) (hc : isSpace c = true)
    (hn : c ≠ '\n') :
    trimChars (c :: cs) = ' ' :: trimChars (cs.dropWhile isSpace) := by
  simp only [trimChars, Regexp.replaceAll, leftmostFirst_re_space c cs hc hn]
  rw [replaceAll_skip, drop_length_takeWhile]
  rfl

theorem trimChars_append_of_not_space :
    ∀ (w t : List Char), (∀ c ∈ w, isSpace c = false) →
      trimChars (w ++ t) = w ++ trimChars t
  | [], _, _ => rfl
  | c :: w, t, h => by
    have hc : isSpace c = false := h c (List.mem_cons_self c w)
    have hw : ∀ d ∈ w, isSpace d = false := fun d hd => h d (List.mem_cons_of_mem c hd)
    rw [List.cons_append, trimChars_other c _ hc, trimChars_append_of_not_space w t hw,
      List.cons_append]

theorem dropWhile_append_of_all (p : Char → Bool) :
    ∀ (w t : List Char), (∀ c ∈ w, p c = true) → (∀ c, t.head? = some c → p c = false) →
      (w ++ t).dropWhile p = t
  | [], [], _, _ => rfl
  | [], c :: t, _, ht => by
    have hc : p c = false := ht c rfl
    simp [List.dropWhile_cons, hc]
  | c :: w, t, hw, ht => by
    have hc : p c = true := hw c (List.mem_cons_self c w)
    have hw2 : ∀ d ∈ w, p d = true := fun d hd => hw d (List.mem_cons_of_mem c hd)
    simp [List.dropWhile_cons, hc, dropWhile_append_of_all p w t hw2 ht]

theorem trimRun_newline_cons (d : Char) (w : List Char) (hd : isSpace d = true) :
    trimRun ('\n' :: d :: w) = ' ' :: trimRun (d :: w) := by
  have hs : isSpace '\n' = true := by decide
  simp only [trimRun, hs, hd, if_true]
  simp [List.takeWhile_cons, List.dropWhile_cons, List.replicate_succ]

theorem trimRun_space_cons (c : Char) (w : List Char) (hc : isSpace c = true)
    (hn : c ≠ '\n') : trimRun (c :: w) = [' '] := by
  simp [trimRun, hc, List.takeWhile_cons, List.dropWhile_cons, hn]

theorem trimChars_append_of_space :
    ∀ (w t : List Char), w ≠ [] → (∀ c ∈ w, isSpace c = true) →
      (∀ c, t.head? = some c → isSpace c = false) →
      trimChars (w ++ t) = trimRun w ++ trimChars t
  | [], _, h, _, _ => absurd rfl h
  | c :: w, t, _, hw, ht => by
    have hc : isSpace c = true := hw c (List.mem_cons_self c w)
    have hw2 : ∀ d ∈ w, isSpace d = true := fun d hd => hw d (List.mem_cons_of_mem c hd)
    by_cases hn : c = '\n'
    · subst hn
      rw [List.cons_append, trimChars_newline]
      cases w with
      | nil => simp [trimRun, hc]
      | cons d w =>
        have hd : isSpace d = true := hw2 d (List.mem_cons_self d w)
        rw [trimChars_append_of_space (d :: w) t (List.cons_ne_nil d w) hw2 ht,
          trimRun_newline_cons d w hd, List.cons_append]
    · rw [List.cons_append, trimChars_space c _ hc hn,
        dropWhile_append_of_all isSpace w t hw2 ht, trimRun_space_cons c w hc hn]
      rfl

theorem runs_cons (p : Char → Bool) :
    ∀ (c : Char) (cs : List Char),
      runs p (c :: cs) =
        (c :: cs.takeWhile (fun x => p x == p c)) ::
          runs p (cs.dropWhile (fun x => p x == p c))
  | c, [] => rfl
  | c, x :: xs => by
    have ih := runs_cons p x xs
    by_cases h : p c = p x
    · have hx : (p x == p c) = true := by simp [h]
      have hf : (fun y => p y == p c) = (fun y => p y == p x) := by
        funext y
        rw [h]
      simp only [runs, List.takeWhile_cons, List.dropWhile_cons, hx, if_true] at ih ⊢
      rw [ih]
      simp only [h, if_true, hf]
    · have hx : (p x == p c) = false := by
        simp only [beq_eq_false_iff_ne, ne_eq]
        exact fun e => h e.symm
      simp only [runs, List.takeWhile_cons, List.dropWhile_cons, hx] at ih ⊢
      rw [ih]
      simp [h]

theorem trimChars_eq_runs :
    ∀ (n : Nat) (cs : List Char), cs.length ≤ n →
      trimChars cs = ((runs isSpace cs).map trimRun).flatten
  | _, [], _ => rfl
  | 0, c :: cs, h => by simp at h
  | n + 1, c :: cs, h => by
    have hlen : (cs.dropWhile (fun x => isSpace x == isSpace c)).length ≤ n :=
      Nat.le_trans (List.dropWhile_sublist _).length_le (Nat.le_of_succ_le_succ h)
    have ih := trimChars_eq_runs n _ hlen
    have hsplit : c :: cs = (c :: cs.takeWhile (fun x => isSpace x == isSpace c)) ++
        cs.dropWhile (fun x => isSpace x == isSpace c) := by
      rw [List.cons_append, List.takeWhile_append_dropWhile]
    have htw : ∀ d ∈ c :: cs.takeWhile (fun x => isSpace x == isSpace c),
        isSpace d = isSpace c := by
      intro d hd
      rcases List.mem_cons.1 hd with rfl | hd
      · rfl
      · simpa using List.mem_takeWhile_imp hd
    have hdw : ∀ d, (cs.dropWhile (fun x => isSpace x == isSpace c)).head? = some d →
        isSpace d ≠ isSpace c := by
      intro d hd e
      have := List.head?_dropWhile_not (fun x => isSpace x == isSpace c) cs
      rw [hd] at this
      simp [e] at this
    rw [runs_cons, List.map_cons, List.flatten_cons, ← ih]
    conv_lhs => rw [hsplit]
    cases hc : isSpace c with
    | true =>
      rw [hc] at htw hdw
      rw [trimChars_append_of_space _ _ (List.cons_ne_nil _ _) htw
        (fun d hd => by simpa using hdw d hd)]
    | false =>
      rw [hc] at htw
      rw [trimChars_append_of_not_space _ _ htw]
      simp [trimRun, hc]

/-! ## Lemmas on `Sprintf` -/

theorem sprintfChars_plain :
    ∀ (post : List Char), '%' ∉ post → sprintfChars post [] = post
  | [], _ => rfl
  | [c], h => by
    have hc : c ≠ '%' := fun e => h (by simp [e])
    simp [sprintfChars, hc, sprintfExtra]
  | c :: v :: rest, h => by
    have hc : c ≠ '%' := fun e => h (by simp [e])
    have hr : '%' ∉ v :: rest := fun m => h (List.mem_cons_of_mem c m)
    simp only [sprintfChars, hc, if_false]
    rw [sprintfChars_plain (v :: rest) hr]

theorem sprintfChars_verb_s :
    ∀ (pre rest : List Char) (a : String) (as : List String), '%' ∉ pre →
      sprintfChars (pre ++ '%' :: 's' :: rest) (a :: as) =
        pre ++ a.data ++ sprintfChars rest as
  | [], rest, a, as, _ => by simp [sprintfChars]
  | [c], rest, a, as, h => by
    have hc : c ≠ '%' := fun e => h (by simp [e])
    simp [sprintfChars, hc]
  | c :: v :: pre, rest, a, as, h => by
    have hc : c ≠ '%' := fun e => h (by simp [e])
    have hr : '%' ∉ v :: pre := fun m => h (List.mem_cons_of_mem c m)
    have ih := sprintfChars_verb_s (v :: pre) rest a as hr
    simp only [List.cons_append] at ih ⊢
    simp only [sprintfChars, hc, if_false]
    rw [ih]

theorem Sprintf_graphql (m : String) :
    Sprintf "GraphQL error: %s" [m] = "GraphQL error: " ++ m := by
  have h := sprintfChars_verb_s "GraphQL error: ".data [] m [] (by decide)
  have e : ("GraphQL error: %s" : String).data = "GraphQL error: ".data ++ '%' :: 's' :: [] := by
    decide
  have h0 : sprintfChars [] [] = [] := rfl
  apply String.ext
  show sprintfChars ("GraphQL error: %s" : String).data [m] = _
  rw [e, h, h0, String.data_append, List.append_nil]

theorem Sprintf_req_body (q v : String) :
    Sprintf "\x7b \"query\": \"%s\", \"variables\": %s \x7d" [q, v] =
      "\x7b \"query\": \"" ++ q ++ "\", \"variables\": " ++ v ++ " \x7d" := by
  have e : ("\x7b \"query\": \"%s\", \"variables\": %s \x7d" : String).data =
      "\x7b \"query\": \"".data ++ '%' :: 's' ::
        ("\", \"variables\": ".data ++ '%' :: 's' :: " \x7d".data) := by decide
  have h1 := sprintfChars_verb_s "\x7b \"query\": \"".data
    ("\", \"variables\": ".data ++ '%' :: 's' :: " \x7d".data) q [v] (by decide)
  have h2 := sprintfChars_verb_s "\", \"variables\": ".data " \x7d".data v [] (by decide)
  have h3 := sprintfChars_plain " \x7d".data (by decide)
  apply String.ext
  show sprintfChars ("\x7b \"query\": \"%s\", \"variables\": %s \x7d" : String).data [q, v] = _
  rw [e, h1, h2, h3]
  simp only [String.data_append, List.append_assoc]

/-! ## Lemmas on the operations -/

theorem Sprintf_bearer (t : String) : Sprintf "Bearer %s" [t] = "Bearer " ++ t := by
  have h := sprintfChars_verb_s "Bearer ".data [] t [] (by decide)
  have e : ("Bearer %s" : String).data = "Bearer ".data ++ '%' :: 's' :: [] := by decide
  have h0 : sprintfChars [] [] = [] := rfl
  apply String.ext
  show sprintfChars ("Bearer %s" : String).data [t] = _
  rw [e, h, h0, String.data_append, List.append_nil]

theorem FindByHash256_of_failure (c : Cyanite) (net : Net)
    (unmarshal : Unmarshal FindByHash256Response) (hash256 : String) (err : GoError)
    (hq : (Query c net hashQuery (Sprintf "\x7b \"sha256\": \"%s\" \x7d" [hash256])).1.2
      = some err) :
    (FindByHash256 c net unmarshal hash256).1 = ("", some err) := by
  unfold FindByHash256
  dsimp only
  rcases hQ : Query c net hashQuery (Sprintf "\x7b \"sha256\": \"%s\" \x7d" [hash256])
    with ⟨⟨b, e⟩, n⟩
  rw [hQ] at hq
  simp only at hq
  subst hq
  rfl

theorem FindByHash256_of_body (c : Cyanite) (net : Net)
    (unmarshal : Unmarshal FindByHash256Response) (hash256 body : String)
    (hq : (Query c net hashQuery (Sprintf "\x7b \"sha256\": \"%s\" \x7d" [hash256])).1
      = (body, none)) :
    (FindByHash256 c net unmarshal hash256).1 =
      match (unmarshal body {}).1.Errors with
      | e :: _ => ("", some (errorsNew ("GraphQL error: " ++ e.Message)))
      | [] =>
        match (unmarshal body {}).1.Data.LibraryTracksResponse.Edges with
        | [] => ("", some (errorsNew "No track found by hash"))
        | e :: _ => (e.Node.ID, none) := by
  unfold FindByHash256
  dsimp only
  rcases hQ : Query c net hashQuery (Sprintf "\x7b \"sha256\": \"%s\" \x7d" [hash256])
    with ⟨⟨b, e⟩, n⟩
  rw [hQ] at hq
  simp only [Prod.mk.injEq] at hq
  obtain ⟨rfl, rfl⟩ := hq
  simp only
  rcases hU : unmarshal b {} with ⟨response, derr⟩
  simp only
  rcases response with ⟨⟨⟨edges⟩⟩, errs⟩
  cases errs with
  | cons e es => simp [Sprintf_graphql]
  | nil =>
    cases edges with
    | nil => simp
    | cons e es => simp

theorem FindSimilar_of_failure (c : Cyanite) (net : Net)
    (unmarshal : Unmarshal FindSimilarResponse) (trackID : String) (err : GoError)
    (hq : (Query c net similarQuery (Sprintf "\x7b \"trackId\": \"%s\" \x7d" [trackID])).1.2
      = some err) :
    (FindSimilar c net unmarshal trackID).1 = (none, some err) := by
  unfold FindSimilar
  dsimp only
  rcases hQ : Query c net similarQuery (Sprintf "\x7b \"trackId\": \"%s\" \x7d" [trackID])
    with ⟨⟨b, e⟩, n⟩
  rw [hQ] at hq
  simp only at hq
  subst hq
  rfl

theorem foldl_append_singleton (f : Edge → String) :
    ∀ (edges : List Edge) (acc : List String),
      edges.foldl (fun result node => result ++ [f node]) acc = acc ++ edges.map f
  | [], acc => by simp
  | e :: es, acc => by
    simp [List.foldl_cons, foldl_append_singleton f es]

theorem FindSimilar_of_body (c : Cyanite) (net : Net)
    (unmarshal : Unmarshal FindSimilarResponse) (trackID body : String)
    (hq : (Query c net similarQuery (Sprintf "\x7b \"trackId\": \"%s\" \x7d" [trackID])).1
      = (body, none)) :
    (FindSimilar c net unmarshal trackID).1 =
      match (unmarshal body {}).1.Errors with
      | e :: _ => (none, some (errorsNew ("GraphQL error: " ++ e.Message)))
      | [] =>
        (some ((unmarshal body {}).1.Data.LibraryTrack.SimilarTracks.Edges.map
          fun node => node.Node.ID), none) := by
  unfold FindSimilar
  dsimp only
  rcases hQ : Query c net similarQuery (Sprintf "\x7b \"trackId\": \"%s\" \x7d" [trackID])
    with ⟨⟨b, e⟩, n⟩
  rw [hQ] at hq
  simp only [Prod.mk.injEq] at hq
  obtain ⟨rfl, rfl⟩ := hq
  simp only
  rcases hU : unmarshal b {} with ⟨response, derr⟩
  simp only
  rcases response with ⟨⟨⟨id, ⟨edges⟩⟩⟩, errs⟩
  cases errs with
  | cons e es => simp [Sprintf_graphql]
  | nil => simp [foldl_append_singleton]

theorem Query_sent (c : Cyanite) (net : Net) (q v : String) :
    (Query c net q v).2.Sent =
      match net.NewRequestErr "POST" c.URL with
      | some _ => net.Sent
      | none =>
        net.Sent ++
          [{ Method := "POST", URL := c.URL,
             Header := [("Content-Type", "application/json"),
               ("Authorization", "Bearer " ++ c.Token)],
             Body := "\x7b \"query\": \"" ++ Trim q ++ "\", \"variables\": " ++ Trim v ++
               " \x7d" }] := by
  unfold Query
  dsimp only
  rw [Sprintf_req_body, Sprintf_bearer]
  cases net.NewRequestErr "POST" c.URL with
  | some err => rfl
  | none =>
    dsimp only
    cases net.Do _ with
    | error err => rfl
    | ok resp =>
      dsimp only
      cases resp.ReadErr with
      | some err => rfl
      | none => rfl

theorem mem_replaceAll_re (ch : Char) :
    ∀ (cs : List Char) (n : Nat), ch ∈ re.replaceAll [' '] n cs →
      ch = ' ' ∨ isSpace ch = false
  | [], n, h => by
    cases n <;> simp [Regexp.replaceAll] at h
  | _ :: cs, n + 1, h => by
    simp only [Regexp.replaceAll] at h
    exact mem_replaceAll_re ch cs n h
  | c :: cs, 0, h => by
    by_cases hn : c = '\n'
    · subst hn
      simp only [Regexp.replaceAll, leftmostFirst_re_newline, List.singleton_append,
        List.mem_cons] at h
      rcases h with h | h
      · exact Or.inl h
      · exact mem_replaceAll_re ch cs 0 h
    · cases hc : isSpace c with
      | true =>
        simp only [Regexp.replaceAll, leftmostFirst_re_space c cs hc hn,
          List.singleton_append, List.mem_cons] at h
        rcases h with h | h
        · exact Or.inl h
        · exact mem_replaceAll_re ch cs _ h
      | false =>
        simp only [Regexp.replaceAll, leftmostFirst_re_other c cs hc, List.mem_cons] at h
        rcases h with h | h
        · exact Or.inr (h ▸ hc)
        · exact mem_replaceAll_re ch cs 0 h

theorem mem_Trim (s : String) (ch : Char) (h : ch ∈ (Trim s).data) :
    ch = ' ' ∨ isSpace ch = false :=
  mem_replaceAll_re ch s.data 0 h

theorem runs_flatten (p : Char → Bool) :
    ∀ (n : Nat) (cs : List Char), cs.length ≤ n → (runs p cs).flatten = cs
  | _, [], _ => rfl
  | 0, c :: cs, h => by simp at h
  | n + 1, c :: cs, h => by
    have hlen : (cs.dropWhile (fun x => p x == p c)).length ≤ n :=
      Nat.le_trans (List.dropWhile_sublist _).length_le (Nat.le_of_succ_le_succ h)
    rw [runs_cons, List.flatten_cons, runs_flatten p n _ hlen, List.cons_append,
      List.takeWhile_append_dropWhile]

theorem graphql_ne_not_found (m : String) :
    errorsNew ("GraphQL error: " ++ m) ≠ errorsNew "No track found by hash" := by
  intro h
  have h2 : ("GraphQL error: " ++ m).data = ("No track found by hash" : String).data := by
    rw [GoError.errorString.inj h]
  rw [String.data_append] at h2
  have h3 : ("GraphQL error: " : String).data = 'G' :: "raphQL error: ".data := by decide
  have h4 : ("No track found by hash" : String).data = 'N' :: "o track found by hash".data := by
    decide
  rw [h3, h4, List.cons_append] at h2
  exact absurd (List.cons.inj h2).1 (by decide)

/-- The error that `json.Unmarshal` returns in `FindByHash256` is stored in `err` and
never read: after a successful transport the result depends on the fields left in the
target alone, and the decode error is never what comes back. -/
theorem FindByHash256_decode_error_unread (c : Cyanite) (net : Net)
    (unmarshal : Unmarshal FindByHash256Response) (hash256 body : String)
    (response : FindByHash256Response) (m : String)
    (hq : (Query c net hashQuery (Sprintf "\x7b \"sha256\": \"%s\" \x7d" [hash256])).1
      = (body, none))
    (hd : unmarshal body {} = (response, some (GoError.json m))) :
    (FindByHash256 c net unmarshal hash256).1 =
      (match response.Errors with
       | e :: _ => ("", some (errorsNew ("GraphQL error: " ++ e.Message)))
       | [] =>
         match response.Data.LibraryTracksResponse.Edges with
         | [] => ("", some (errorsNew "No track found by hash"))
         | e :: _ => (e.Node.ID, none)) ∧
    (FindByHash256 c net unmarshal hash256).1.2 ≠ some (GoError.json m) := by
  have key := FindByHash256_of_body c net unmarshal hash256 body hq
  rw [hd] at key
  refine ⟨key, ?_⟩
  rw [key]
  cases response.Errors with
  | cons e es => simp [errorsNew]
  | nil =>
    cases response.Data.LibraryTracksResponse.Edges with
    | nil => simp [errorsNew]
    | cons e es => simp

/-! ## The claims -/

/-- C1, as stated, fails: a run of two newlines, and a newline followed by two spaces,
each come out of `Trim` as two spaces, where the normalisation of the specification
gives one space. -/
theorem Trim_newline_run_counterexample :
    Trim "\n\n" = "  " ∧ Trim "\n  " = "  " ∧
    collapseSpec "\n\n" = " " ∧ collapseSpec "\n  " = " " ∧
    Trim "\n\n" ≠ collapseSpec "\n\n" ∧ Trim "\n  " ≠ collapseSpec "\n  " := by
  decide

/-- C1, amended: `Trim s` is `s` with every maximal run of `\s` characters (space, tab,
newline, carriage return, form feed) replaced by one space for each newline the run
begins with, plus one more space when the run goes on after those newlines; the runs
are a partition of `s` and the other runs are left as they are. A run that begins with
another whitespace character than the newline, and a run that is one newline, become
exactly one space. -/
theorem Trim_eq_runs :
    (∀ s : String, Trim s = ⟨((runs isSpace s.data).map trimRun).flatten⟩) ∧
    (∀ s : String, (runs isSpace s.data).flatten = s.data) ∧
    (∀ (c : Char) (w : List Char), isSpace c = true → c ≠ '\n' → trimRun (c :: w) = [' ']) ∧
    (∀ (c : Char) (w : List Char), isSpace c = false → trimRun (c :: w) = c :: w) ∧
    trimRun ['\n'] = [' '] := by
  refine ⟨fun s => ?_, fun s => runs_flatten isSpace _ _ (Nat.le_refl _),
    fun c w hc hn => trimRun_space_cons c w hc hn, fun c w hc => ?_, by decide⟩
  · apply String.ext
    exact trimChars_eq_runs _ _ (Nat.le_refl _)
  · simp [trimRun, hc]

/-- C1, amended, at a text: the runs of `"a \n\tb\n\n c"` are `a`, ` \n\t`, `b`, `\n\n `
and `c`; the first whitespace run gives one space, the second three. -/
theorem Trim_eq_runs_witness :
    Trim "a \n\tb\n\n c" = "a b   c" ∧
    Trim "a \n\tb\n\n c" = ⟨((runs isSpace "a \n\tb\n\n c".data).map trimRun).flatten⟩ ∧
    trimRun (' ' :: "\n\t".data) = [' '] :=
  ⟨by decide, Trim_eq_runs.1 "a \n\tb\n\n c",
    Trim_eq_runs.2.2.1 ' ' "\n\t".data (by decide) (by decide)⟩

/-- C2: when the transport succeeds and the decoded `errors` is not empty, both
`FindByHash256` and `FindSimilar` fail with the zero result and the error whose text is
`GraphQL error: ` followed by the message of the first error, whatever `data` holds,
whatever the later errors are and whatever `json.Unmarshal` returned as its error. -/
theorem graphql_error_first_message (c : Cyanite) (net : Net) (body : String)
    (e : CyaniteError) (es : List CyaniteError) :
    (∀ (unmarshal : Unmarshal FindByHash256Response) (hash256 : String)
        (response : FindByHash256Response) (derr : Option GoError),
        (Query c net hashQuery (Sprintf "\x7b \"sha256\": \"%s\" \x7d" [hash256])).1
          = (body, none) →
        unmarshal body {} = (response, derr) → response.Errors = e :: es →
        (FindByHash256 c net unmarshal hash256).1
          = ("", some (errorsNew ("GraphQL error: " ++ e.Message)))) ∧
    (∀ (unmarshal : Unmarshal FindSimilarResponse) (trackID : String)
        (response : FindSimilarResponse) (derr : Option GoError),
        (Query c net similarQuery (Sprintf "\x7b \"trackId\": \"%s\" \x7d" [trackID])).1
          = (body, none) →
        unmarshal body {} = (response, derr) → response.Errors = e :: es →
        (FindSimilar c net unmarshal trackID).1
          = (none, some (errorsNew ("GraphQL error: " ++ e.Message)))) := by
  constructor
  · intro unmarshal hash256 response derr hq hd he
    rw [FindByHash256_of_body c net unmarshal hash256 body hq, hd]
    simp only [he]
  · intro unmarshal trackID response derr hq hd he
    rw [FindSimilar_of_body c net unmarshal trackID body hq, hd]
    simp only [he]

/-- C2 at the bodies with `"errors":[{"message":"bad token"},{"message":"second"}]` and
a populated `data`: both calls fail with `GraphQL error: bad token`. -/
theorem graphql_error_first_message_witness :
    (FindByHash256 sampleClient (netAnswering bodyBadToken) jsonHashSamples sampleHash).1
      = ("", some (errorsNew "GraphQL error: bad token")) ∧
    (FindSimilar sampleClient (netAnswering bodySimilarBadToken) jsonSimilarSamples "T1").1
      = (none, some (errorsNew "GraphQL error: bad token")) :=
  ⟨(graphql_error_first_message sampleClient (netAnswering bodyBadToken) bodyBadToken
      { Message := "bad token" } [{ Message := "second" }]).1 jsonHashSamples sampleHash
      (jsonHashSamples bodyBadToken {}).1 none (by decide) (by decide) (by decide),
   (graphql_error_first_message sampleClient (netAnswering bodySimilarBadToken)
      bodySimilarBadToken { Message := "bad token" } [{ Message := "second" }]).2
      jsonSimilarSamples "T1" (jsonSimilarSamples bodySimilarBadToken {}).1 none
      (by decide) (by decide) (by decide)⟩

/-- C3: when the transport succeeds, the decoded `errors` is empty and the decoded
`data.libraryTracks.edges` is not, `FindByHash256` returns the `id` of the node of the
first edge with a nil error; the other edges play no part. -/
theorem FindByHash256_first_edge (c : Cyanite) (net : Net)
    (unmarshal : Unmarshal FindByHash256Response) (hash256 body : String)
    (response : FindByHash256Response) (derr : Option GoError) (e : Edge) (es : List Edge)
    (hq : (Query c net hashQuery (Sprintf "\x7b \"sha256\": \"%s\" \x7d" [hash256])).1
      = (body, none))
    (hd : unmarshal body {} = (response, derr))
    (herrors : response.Errors = [])
    (hedges : response.Data.LibraryTracksResponse.Edges = e :: es) :
    (FindByHash256 c net unmarshal hash256).1 = (e.Node.ID, none) := by
  rw [FindByHash256_of_body c net unmarshal hash256 body hq, hd]
  simp only [herrors, hedges]

/-- C3 at the body
`{"data":{"libraryTracks":{"edges":[{"node":{"id":"T1","title":"Song"}}]}},"errors":[]}`:
the call returns `T1`. -/
theorem FindByHash256_first_edge_witness :
    jsonHashSamples bodyT1 {} =
      ({ Data := { LibraryTracksResponse :=
          { Edges := [{ Node := { ID := "T1", Title := "Song" } }] } }, Errors := [] }, none) ∧
    (FindByHash256 sampleClient (netAnswering bodyT1) jsonHashSamples sampleHash).1
      = ("T1", none) :=
  ⟨by decide,
   FindByHash256_first_edge sampleClient (netAnswering bodyT1) jsonHashSamples sampleHash
    bodyT1 (jsonHashSamples bodyT1 {}).1 none { Node := { ID := "T1", Title := "Song" } } []
    (by decide) (by decide) (by decide) (by decide)⟩

/-- C4: when the transport succeeds and the decoded `errors` and `edges` are both empty,
`FindByHash256` returns the empty string and the error `No track found by hash`; after a
successful transport that error comes back in no other case, so only with `errors`
empty; and it differs from every GraphQL error. -/
theorem FindByHash256_not_found (c : Cyanite) (net : Net)
    (unmarshal : Unmarshal FindByHash256Response) (hash256 body : String)
    (response : FindByHash256Response) (derr : Option GoError)
    (hq : (Query c net hashQuery (Sprintf "\x7b \"sha256\": \"%s\" \x7d" [hash256])).1
      = (body, none))
    (hd : unmarshal body {} = (response, derr)) :
    (response.Errors = [] ∧ response.Data.LibraryTracksResponse.Edges = [] →
      (FindByHash256 c net unmarshal hash256).1
        = ("", some (errorsNew "No track found by hash"))) ∧
    ((FindByHash256 c net unmarshal hash256).1.2 = some (errorsNew "No track found by hash") →
      response.Errors = [] ∧ response.Data.LibraryTracksResponse.Edges = []) ∧
    (∀ m : String, errorsNew "No track found by hash" ≠ errorsNew ("GraphQL error: " ++ m)) := by
  have key := FindByHash256_of_body c net unmarshal hash256 body hq
  rw [hd] at key
  refine ⟨?_, ?_, fun m h => graphql_ne_not_found m h.symm⟩
  · rintro ⟨h1, h2⟩
    rw [key]
    simp only [h1, h2]
  · intro h
    rw [key] at h
    cases herr : response.Errors with
    | cons e es =>
      simp only [herr, Option.some.injEq] at h
      exact absurd h (graphql_ne_not_found e.Message)
    | nil =>
      cases hedg : response.Data.LibraryTracksResponse.Edges with
      | nil => exact ⟨rfl, rfl⟩
      | cons e es =>
        simp only [herr, hedg] at h
        cases h

/-- C4 at the body `{"data":{"libraryTracks":{"edges":[]}},"errors":[]}`. -/
theorem FindByHash256_not_found_witness :
    (FindByHash256 sampleClient (netAnswering bodyNoTracks) jsonHashSamples sampleHash).1
      = ("", some (errorsNew "No track found by hash")) :=
  (FindByHash256_not_found sampleClient (netAnswering bodyNoTracks) jsonHashSamples sampleHash
    bodyNoTracks (jsonHashSamples bodyNoTracks {}).1 none (by decide) (by decide)).1
    ⟨by decide, by decide⟩

/-- C5: the claim asks that a decode failure be returned, before the `errors` and
`edges` checks; the code does not do so. On the empty body the transport succeeds,
`json.Unmarshal` returns `unexpected end of JSON input` and leaves the target
zero-valued, and `FindByHash256` returns the error `No track found by hash` in place of
the decode error. -/
theorem FindByHash256_decode_error_not_returned :
    (Query sampleClient (netAnswering "") hashQuery
      (Sprintf "\x7b \"sha256\": \"%s\" \x7d" [sampleHash])).1 = ("", none) ∧
    jsonHashSamples "" {} = ({}, some jsonEndOfInput) ∧
    (FindByHash256 sampleClient (netAnswering "") jsonHashSamples sampleHash).1
      = ("", some (errorsNew "No track found by hash")) ∧
    (FindByHash256 sampleClient (netAnswering "") jsonHashSamples sampleHash).1.2
      ≠ some jsonEndOfInput := by
  decide

/-- C6: when the transport succeeds and the decoded `errors` is empty, `FindSimilar`
returns, with a nil error, the list of the `id`s of the nodes of
`data.libraryTrack.similarTracks.edges`, one for each edge and in the order of the
edges; for no edges that is the empty (non-nil) list. -/
theorem FindSimilar_ids_in_order (c : Cyanite) (net : Net)
    (unmarshal : Unmarshal FindSimilarResponse) (trackID body : String)
    (response : FindSimilarResponse) (derr : Option GoError)
    (hq : (Query c net similarQuery (Sprintf "\x7b \"trackId\": \"%s\" \x7d" [trackID])).1
      = (body, none))
    (hd : unmarshal body {} = (response, derr))
    (herrors : response.Errors = []) :
    (FindSimilar c net unmarshal trackID).1 =
      (some (response.Data.LibraryTrack.SimilarTracks.Edges.map fun node => node.Node.ID),
        none) ∧
    (response.Data.LibraryTrack.SimilarTracks.Edges = [] →
      (FindSimilar c net unmarshal trackID).1 = (some [], none)) := by
  have key := FindSimilar_of_body c net unmarshal trackID body hq
  rw [hd] at key
  simp only [herrors] at key
  refine ⟨key, fun h => ?_⟩
  rw [key, h]
  rfl

/-- C6 at a body whose edges are `[{"node":{"id":"A"}},{"node":{"id":"B"}}]`: the call
returns `["A", "B"]`. -/
theorem FindSimilar_ids_in_order_witness :
    (jsonSimilarSamples bodySimilarAB {}).1.Data.LibraryTrack.SimilarTracks.Edges
      = [{ Node := { ID := "A" } }, { Node := { ID := "B" } }] ∧
    (FindSimilar sampleClient (netAnswering bodySimilarAB) jsonSimilarSamples "T1").1
      = (some ["A", "B"], none) :=
  ⟨by decide,
   (FindSimilar_ids_in_order sampleClient (netAnswering bodySimilarAB) jsonSimilarSamples "T1"
    bodySimilarAB (jsonSimilarSamples bodySimilarAB {}).1 none
    (by decide) (by decide) (by decide)).1⟩

/-- C7: when `Query` fails with the error `e`, `FindByHash256` returns `("", e)` and
`FindSimilar` returns `(nil, e)`, for every decoder: the error is handed on unchanged
and nothing of a response body or of its decoding enters the result. -/
theorem transport_failure_propagates (c : Cyanite) (net : Net) (e : GoError) :
    (∀ (unmarshal : Unmarshal FindByHash256Response) (hash256 : String),
        (Query c net hashQuery (Sprintf "\x7b \"sha256\": \"%s\" \x7d" [hash256])).1.2
          = some e →
        (FindByHash256 c net unmarshal hash256).1 = ("", some e)) ∧
    (∀ (unmarshal : Unmarshal FindSimilarResponse) (trackID : String),
        (Query c net similarQuery (Sprintf "\x7b \"trackId\": \"%s\" \x7d" [trackID])).1.2
          = some e →
        (FindSimilar c net unmarshal trackID).1 = (none, some e)) :=
  ⟨fun unmarshal hash256 hq => FindByHash256_of_failure c net unmarshal hash256 e hq,
   fun unmarshal trackID hq => FindSimilar_of_failure c net unmarshal trackID e hq⟩

/-- C7 in a world where `client.Do` fails with `connection refused`. -/
theorem transport_failure_propagates_witness :
    (FindByHash256 sampleClient (netRefusing (GoError.transport "connection refused"))
      jsonHashSamples sampleHash).1 = ("", some (GoError.transport "connection refused")) ∧
    (FindSimilar sampleClient (netRefusing (GoError.transport "connection refused"))
      jsonSimilarSamples "T1").1 = (none, some (GoError.transport "connection refused")) :=
  ⟨(transport_failure_propagates sampleClient
      (netRefusing (GoError.transport "connection refused"))
      (GoError.transport "connection refused")).1 jsonHashSamples sampleHash (by decide),
   (transport_failure_propagates sampleClient
      (netRefusing (GoError.transport "connection refused"))
      (GoError.transport "connection refused")).2 jsonSimilarSamples "T1" (by decide)⟩

/-- C8: when the transport succeeds and `json.Unmarshal` returns an error, `FindSimilar`
never returns that error: its result is computed from the fields the decoder left in the
target alone, and with `errors` and `edges` left empty it is the empty list with a nil
error. -/
theorem FindSimilar_decode_error_swallowed (c : Cyanite) (net : Net)
    (unmarshal : Unmarshal FindSimilarResponse) (trackID body : String)
    (response : FindSimilarResponse) (m : String)
    (hq : (Query c net similarQuery (Sprintf "\x7b \"trackId\": \"%s\" \x7d" [trackID])).1
      = (body, none))
    (hd : unmarshal body {} = (response, some (GoError.json m))) :
    (FindSimilar c net unmarshal trackID).1 =
      (match response.Errors with
       | e :: _ => (none, some (errorsNew ("GraphQL error: " ++ e.Message)))
       | [] =>
         (some (response.Data.LibraryTrack.SimilarTracks.Edges.map fun node => node.Node.ID),
           none)) ∧
    (FindSimilar c net unmarshal trackID).1.2 ≠ some (GoError.json m) ∧
    (response.Errors = [] ∧ response.Data.LibraryTrack.SimilarTracks.Edges = [] →
      (FindSimilar c net unmarshal trackID).1 = (some [], none)) := by
  have key := FindSimilar_of_body c net unmarshal trackID body hq
  rw [hd] at key
  refine ⟨key, ?_, ?_⟩
  · rw [key]
    cases response.Errors with
    | cons e es => simp [errorsNew]
    | nil => simp
  · rintro ⟨h1, h2⟩
    rw [key]
    simp only [h1, h2]
    rfl

/-- C8 at the empty body, which is no JSON text: `FindSimilar` returns the empty list
and a nil error. -/
theorem FindSimilar_decode_error_swallowed_witness :
    jsonSimilarSamples "" {} = ({}, some jsonEndOfInput) ∧
    (FindSimilar sampleClient (netAnswering "") jsonSimilarSamples "T1").1 = (some [], none) :=
  ⟨by decide,
   (FindSimilar_decode_error_swallowed sampleClient (netAnswering "") jsonSimilarSamples "T1"
    "" {} "unexpected end of JSON input" (by decide) (by decide)).2.2 ⟨rfl, rfl⟩⟩

/-- C9, as stated, fails: the body `Query` sends for the query `q` and the variables
`{}` has a space after the opening and before the closing brace, which the template of
the specification has not. -/
theorem Query_body_template_counterexample :
    ((Query sampleClient (netAnswering "") "q" "\x7b\x7d").2.Sent.map fun r => r.Body)
      = ["\x7b \"query\": \"q\", \"variables\": \x7b\x7d \x7d"] ∧
    specRequestBody "q" "\x7b\x7d" = "\x7b\"query\": \"q\", \"variables\": \x7b\x7d\x7d" ∧
    ((Query sampleClient (netAnswering "") "q" "\x7b\x7d").2.Sent.map fun r => r.Body)
      ≠ [specRequestBody "q" "\x7b\x7d"] := by
  decide

/-- C9, amended: `Query` hands to `client.Do` exactly one request, unless
`http.NewRequest` fails and none is sent: a `POST` to the client's URL with the two
headers, whose body is the template `{ "query": "<query>", "variables": <variables> }`
(a space after the opening and before the closing brace) with `<query>` replaced by
`Trim q` and `<variables>` by `Trim v`, both inserted as they are, without escaping. -/
theorem Query_request_body (c : Cyanite) (net : Net) (q v : String) :
    (Query c net q v).2.Sent =
      match net.NewRequestErr "POST" c.URL with
      | some _ => net.Sent
      | none =>
        net.Sent ++
          [{ Method := "POST", URL := c.URL,
             Header := [("Content-Type", "application/json"),
               ("Authorization", "Bearer " ++ c.Token)],
             Body := "\x7b \"query\": \"" ++ Trim q ++ "\", \"variables\": " ++ Trim v ++
               " \x7d" }] :=
  Query_sent c net q v

/-- C10: `Trim s` holds no newline, tab, carriage return or form feed, the space being
the only `\s` character that occurs in it; so the body of every request that `Query`
sends holds no newline. -/
theorem Trim_single_line :
    (∀ s : String, '\n' ∉ (Trim s).data ∧ '\t' ∉ (Trim s).data ∧ '\r' ∉ (Trim s).data ∧
      Char.ofNat 12 ∉ (Trim s).data) ∧
    (∀ (s : String) (ch : Char), ch ∈ (Trim s).data → isSpace ch = true → ch = ' ') ∧
    (∀ (c : Cyanite) (net : Net) (q v : String) (r : Request),
      r ∈ (Query c net q v).2.Sent → r ∈ net.Sent ∨ '\n' ∉ r.Body.data) := by
  have hsp : ∀ (s : String) (ch : Char), ch ∈ (Trim s).data → isSpace ch = true → ch = ' ' := by
    intro s ch h hs
    rcases mem_Trim s ch h with h1 | h1
    · exact h1
    · rw [hs] at h1
      cases h1
  have hno : ∀ (s : String) (ch : Char), isSpace ch = true → ch ≠ ' ' → ch ∉ (Trim s).data :=
    fun s ch hs hne h => hne (hsp s ch h hs)
  refine ⟨fun s => ⟨hno s _ (by decide) (by decide), hno s _ (by decide) (by decide),
    hno s _ (by decide) (by decide), hno s _ (by decide) (by decide)⟩, hsp, ?_⟩
  intro c net q v r hr
  rw [Query_sent] at hr
  cases hN : net.NewRequestErr "POST" c.URL with
  | some err =>
    rw [hN] at hr
    exact Or.inl hr
  | none =>
    rw [hN] at hr
    rcases List.mem_append.1 hr with h | h
    · exact Or.inl h
    · right
      rw [List.mem_singleton] at h
      subst h
      have hq := hno q '\n' (by decide) (by decide)
      have hv := hno v '\n' (by decide) (by decide)
      simp only [String.data_append, List.mem_append, not_or]
      exact ⟨⟨⟨⟨by decide, hq⟩, by decide⟩, hv⟩, by decide⟩

/-- C10 at the query of `FindByHash256`, a text of ten lines: `Trim` leaves no newline
and no tab in it, and the request then sent has a body without a newline. -/
theorem Trim_single_line_witness :
    '\n' ∈ hashQuery.data ∧ '\n' ∉ (Trim hashQuery).data ∧ '\t' ∉ (Trim hashQuery).data ∧
    (∀ r ∈ (Query sampleClient (netAnswering bodyT1) hashQuery "\x7b\x7d").2.Sent,
      '\n' ∉ r.Body.data) :=
  ⟨by decide, (Trim_single_line.1 hashQuery).1, (Trim_single_line.1 hashQuery).2.1,
   fun r hr => (Trim_single_line.2.2 sampleClient (netAnswering bodyT1) hashQuery "\x7b\x7d"
     r hr).resolve_left (by simp [netAnswering])⟩

end App
